import Mathlib

/-!
Verification development for the nanoproxy HTTP/HTTPS forward proxy.

Rust strings are embedded as `List Char` (named `Str`); machine state that
is touched behind locks is embedded as explicit state passing; network and
operating-system effects (TCP connects, DNS resolution, interface lookup,
the embedded JavaScript engine) are embedded as oracle function arguments.
Each definition is translated from the corresponding Rust source item,
named after it where Lean allows.
-/

namespace Nanoproxy

/-- Rust `String` / `&str`, embedded as a list of characters. -/
abbrev Str := List Char

/-! ## String helpers mirroring the Rust standard library -/

/-- Rust `str::split(c)`: split on every occurrence of `c`, keeping empty
items (`"a;;b"` gives three items). -/
def splitOnChar (c : Char) : Str → List Str
  | [] => [[]]
  | x :: xs =>
    if x = c then [] :: splitOnChar c xs
    else
      match splitOnChar c xs with
      | [] => [[x]]
      | h :: t => (x :: h) :: t

/-- Rust `str::trim`: drop whitespace from both ends. -/
def trimStr (s : Str) : Str :=
  ((s.dropWhile Char.isWhitespace).reverse.dropWhile Char.isWhitespace).reverse

/-- Helper for `splitWhitespaceParts`: `cur` is the current word, reversed. -/
def splitWhitespaceAux (cur : Str) : Str → List Str
  | [] => if cur = [] then [] else [cur.reverse]
  | c :: s =>
    if c.isWhitespace then
      if cur = [] then splitWhitespaceAux [] s
      else cur.reverse :: splitWhitespaceAux [] s
    else splitWhitespaceAux (c :: cur) s

/-- Rust `str::split_whitespace`: maximal non-whitespace runs, no empties. -/
def splitWhitespaceParts (s : Str) : List Str :=
  splitWhitespaceAux [] s

/-- Rust `result_string.replace('"', "")` in `evaluate_pac`. -/
def stripQuotes (s : Str) : Str :=
  s.filter (fun c => c ≠ '"')

instance {ε α : Type} [DecidableEq ε] [DecidableEq α] :
    DecidableEq (Except ε α) := fun x y =>
  match x, y with
  | .error e, .error f =>
    if h : e = f then .isTrue (by rw [h])
    else .isFalse (by intro hh; injection hh with h2; exact h h2)
  | .ok a, .ok b =>
    if h : a = b then .isTrue (by rw [h])
    else .isFalse (by intro hh; injection hh with h2; exact h h2)
  | .error _, .ok _ => .isFalse (by intro hh; injection hh)
  | .ok _, .error _ => .isFalse (by intro hh; injection hh)

/-! ## Domain model (src/domain/models.rs, src/domain/errors.rs) -/

/-- The parts of `url::Url` the program reads: `scheme()`, `host_str()`,
`port()`. -/
structure UrlT where
  scheme : Str
  host : Option Str
  port : Option Nat
deriving DecidableEq, Repr

/-- `ProxyError` (src/domain/errors.rs). -/
inductive ProxyErrorT
  | invalidUri (msg : Str)
  | missingHost
  | connectionFailed (msg : Str)
  | tunnelFailed (msg : Str)
  | resolutionFailed (msg : Str)
  | authenticationFailed (msg : Str)
  | invalidRequest (msg : Str)
  | upstreamError (msg : Str)
  | timeout
  | unknown (msg : Str)
deriving DecidableEq, Repr

/-- `ProxyRoute` (src/domain/models.rs). The dead `credentials` field of
`Upstream` is omitted; only `proxy_url` is ever read. -/
inductive ProxyRouteT
  | direct
  | upstream (proxyUrl : UrlT)
  | blocked (reason : Str)
deriving DecidableEq, Repr

/-- `Credentials` (src/domain/models.rs). -/
structure CredentialsT where
  username : Str
  password : Str
deriving DecidableEq, Repr

/-! ## PAC evaluator (src/adapters/pac_resolver/pac_evaluator.rs) -/

/-- The per-item directive interpretation inside the big `map` of
`evaluate_pac` (lines 42-55): split the item on whitespace and match on
the first token. -/
def interpretDirective (v : Str) : Str :=
  match splitWhitespaceParts v with
  | [] => "direct://".toList
  | first :: rest =>
    if first = "DIRECT".toList then "direct://".toList
    else if first = "PROXY".toList then
      match rest with
      | proxy :: _ => "http://".toList ++ proxy
      | [] => "direct://".toList
    else "direct://".toList

/-- Lines 37-56 of `evaluate_pac`: strip double quotes from the result
string, split on semicolons, trim each item, drop empties, interpret each
remaining item. -/
def parseDirectives (s : Str) : List Str :=
  (((splitOnChar ';' (stripQuotes s)).map trimStr).filter (fun v => v ≠ [])).map
    interpretDirective

/-- Lines 58-62 of `evaluate_pac`: an empty parsed list is replaced by
the singleton `["direct://"]`. -/
def evaluatePacDirectives (s : Str) : List Str :=
  let proxies := parseDirectives s
  if proxies = [] then ["direct://".toList] else proxies

/-- `evaluate_pac` (src/adapters/pac_resolver/pac_evaluator.rs, lines
7-63). The embedded JavaScript engine is an oracle `js` mapping the PAC
script text and the target URL to the `FindProxyForURL` result string (or
a script/conversion error). The host check of lines 8-10 precedes any
evaluation. -/
def evaluatePac (js : Str → UrlT → Except ProxyErrorT Str) (pacFile : Str)
    (url : UrlT) : Except ProxyErrorT (List Str) :=
  match url.host with
  | none => .error (.invalidUri "Missing host".toList)
  | some _ =>
    match js pacFile url with
    | .error e => .error e
    | .ok resultString => .ok (evaluatePacDirectives resultString)

/-- `parse_proxy_route` needs `Url::parse` only to read the scheme, host
and port of evaluator tokens such as `direct://` and `http://host:3128`;
this parses `scheme://host[:port][/...]`, requiring a nonempty host for
the special schemes `http`/`https` as `url::Url` does. -/
def findSchemeMarker : Str → Option (Str × Str)
  | ':' :: '/' :: '/' :: rest => some ([], rest)
  | c :: cs =>
    match findSchemeMarker cs with
    | some (scheme, rest) => some (c :: scheme, rest)
    | none => none
  | [] => none

/-- Decimal port parser for `parseUrl`. -/
def parsePortDigits (s : Str) : Option Nat :=
  if s = [] then none
  else if s.all Char.isDigit then
    some (s.foldl (fun acc c => acc * 10 + (c.toNat - '0'.toNat)) 0)
  else none

/-- Simplified `url::Url::parse` for the URL shapes the program builds:
`scheme://authority[/path]` with `authority = host[:port]`. -/
def parseUrl (s : Str) : Option UrlT :=
  match findSchemeMarker s with
  | none => none
  | some (scheme, rest) =>
    let authority := rest.takeWhile (fun c => c ≠ '/')
    let host := authority.takeWhile (fun c => c ≠ ':')
    let portPart := (authority.dropWhile (fun c => c ≠ ':')).drop 1
    let port :=
      if (authority.dropWhile (fun c => c ≠ ':')) = [] then none
      else parsePortDigits portPart
    if (scheme = "http".toList ∨ scheme = "https".toList) ∧ host = [] then
      none
    else
      some { scheme := scheme
             host := if host = [] then none else some host
             port := port }

/-- `parse_proxy_route` (src/adapters/pac_resolver/pac_evaluator.rs, lines
65-75): `direct` maps to `Direct`, `http`/`https` to `Upstream`, anything
else (or an unparsable URL) to `InvalidUri`. -/
def parseProxyRoute (proxyUrl : Str) : Except ProxyErrorT ProxyRouteT :=
  match parseUrl proxyUrl with
  | none => .error (.invalidUri "Invalid proxy URL".toList)
  | some url =>
    if url.scheme = "direct".toList then .ok .direct
    else if url.scheme = "http".toList ∨ url.scheme = "https".toList then
      .ok (.upstream url)
    else .error (.invalidUri "Unsupported scheme".toList)

/-- The `.map(parse_proxy_route).collect::<Result<Vec<_>>>()` of
`resolve_with_pac` (src/adapters/pac_resolver/resolver.rs, line 67): the
first parse error aborts the whole list. -/
def collectRoutes : List Str → Except ProxyErrorT (List ProxyRouteT)
  | [] => .ok []
  | s :: rest =>
    match parseProxyRoute s with
    | .error e => .error e
    | .ok r =>
      match collectRoutes rest with
      | .error e => .error e
      | .ok rs => .ok (r :: rs)

/-! ## Route resolver (src/adapters/pac_resolver/resolver.rs) -/

/-- `PacProxyResolver::resolve_with_pac` (lines 63-68): fetch the PAC text
(`get_pac_file`, an oracle here: cache hit or network download), evaluate
it, parse every token into a route. -/
def resolveWithPac (fetch : Str → Except ProxyErrorT Str)
    (js : Str → UrlT → Except ProxyErrorT Str) (pacUrl : Str)
    (targetUrl : UrlT) : Except ProxyErrorT (List ProxyRouteT) :=
  match fetch pacUrl with
  | .error e => .error e
  | .ok pacFile =>
    match evaluatePac js pacFile targetUrl with
    | .error e => .error e
    | .ok proxyUrls => collectRoutes proxyUrls

/-- `PacProxyResolver::resolve_all_routes` (lines 88-95): a null PAC URL
yields `[Direct]`, otherwise resolve through the PAC script. -/
def resolveAllRoutes (fetch : Str → Except ProxyErrorT Str)
    (js : Str → UrlT → Except ProxyErrorT Str) (pacUrl : Option Str)
    (targetUrl : UrlT) : Except ProxyErrorT (List ProxyRouteT) :=
  match pacUrl with
  | some url => resolveWithPac fetch js url targetUrl
  | none => .ok [.direct]

/-- `PacProxyResolver::resolve_route` (lines 73-86): first element of the
PAC resolution, or `Direct` when the PAC URL is null. -/
def resolveRoute (fetch : Str → Except ProxyErrorT Str)
    (js : Str → UrlT → Except ProxyErrorT Str) (pacUrl : Option Str)
    (targetUrl : UrlT) : Except ProxyErrorT ProxyRouteT :=
  match pacUrl with
  | some url =>
    match resolveWithPac fetch js url targetUrl with
    | .error e => .error e
    | .ok routes =>
      match routes with
      | [] => .error (.resolutionFailed "No routes found".toList)
      | r :: _ => .ok r
  | none => .ok .direct

/-! ### Resolver state machine (PAC URL + LRU script cache)

`PacProxyResolver` keeps `pac_url : RwLock<Option<String>>` and
`pac_cache : RwLock<LruCache<String, String>>` (capacity 5).
`resolve_all_routes` holds the `pac_url` read guard for its whole body and
`update_pac_url` holds the write guard for its whole body, so every
operation is serialised on that lock; the state machine below applies them
atomically. -/

/-- `LruCache::new(5)` capacity (resolver.rs line 23). -/
def pacCacheCap : Nat := 5

/-- `LruCache::get`: a hit promotes the entry to most-recently-used. -/
def lruGetReorder (cache : List (Str × Str)) (k : Str) : List (Str × Str) :=
  match cache.find? (fun e => e.1 = k) with
  | some e => e :: cache.filter (fun e => ¬ e.1 = k)
  | none => cache

/-- `LruCache::put`: insert at most-recently-used, evicting the least
recently used entry beyond the capacity. -/
def lruPut (cache : List (Str × Str)) (k v : Str) : List (Str × Str) :=
  ((k, v) :: cache.filter (fun e => ¬ e.1 = k)).take pacCacheCap

/-- The mutable state owned by `PacProxyResolver`. -/
structure ResolverStateT where
  pacUrl : Option Str
  pacCache : List (Str × Str)
deriving DecidableEq, Repr

/-- Startup state (`PacProxyResolver::new`). -/
def initialResolverState : ResolverStateT :=
  { pacUrl := none, pacCache := [] }

/-- The two operations that touch the resolver state:
`update_pac_url` (lines 97-106) and the cache access performed by a
`resolve_all_routes`/`resolve_route` call through `get_pac_file`
(lines 50-61), whose network download result is `fetched`. -/
inductive ResolverOp
  | updatePacUrl (u : Option Str)
  | resolveTouch (fetched : Str)
deriving DecidableEq, Repr

/-- Apply one operation to the resolver state. `update_pac_url` stores the
new URL and clears the cache; a resolve with a null PAC URL never touches
the cache, otherwise `get_pac_file` promotes a hit or inserts the
downloaded text on a miss (`load_pac`, lines 43-44). -/
def applyResolverOp (st : ResolverStateT) : ResolverOp → ResolverStateT
  | .updatePacUrl u => { pacUrl := u, pacCache := [] }
  | .resolveTouch fetched =>
    match st.pacUrl with
    | none => st
    | some u =>
      match st.pacCache.find? (fun e => e.1 = u) with
      | some _ => { st with pacCache := lruGetReorder st.pacCache u }
      | none => { st with pacCache := lruPut st.pacCache u fetched }

/-- Run a sequence of operations from the startup state. -/
def runResolverOps (ops : List ResolverOp) : ResolverStateT :=
  ops.foldl applyResolverOp initialResolverState

/-- Every cached script is keyed by the currently active PAC URL: no cache
entry stored under an earlier PAC URL survives a URL change. -/
def cacheKeysCurrent (st : ResolverStateT) : Prop :=
  ∀ e ∈ st.pacCache, some e.1 = st.pacUrl

instance (st : ResolverStateT) : Decidable (cacheKeysCurrent st) := by
  unfold cacheKeysCurrent; infer_instance

/-! ## Upstream connector (src/adapters/hyper_server/connector.rs) -/

/-- Outcome of `timeout(200ms, TcpStream::connect(addr))`: connected,
connect error, or the 200 ms timeout elapsed. The network is an oracle
from addresses to outcomes. -/
inductive ConnectOutcome
  | success
  | connError
  | timedOut
deriving DecidableEq, Repr

/-- `HyperConnector::TIMEOUT_DURATION = Duration::from_millis(200)`
(connector.rs line 46), in milliseconds. -/
def timeoutDurationMillis : Nat := 200

/-- The authority of the dialled URI: host and optional port. -/
structure AuthorityT where
  host : Str
  port : Option Nat
deriving DecidableEq, Repr

/-- Decimal rendering of a number, for `format!("{}:{}", host, port)`. -/
def natToStr (n : Nat) : Str := (toString n).toList

/-- connector.rs lines 83-86: the address dialled for a `Direct` route is
`authority.host:port` with port defaulting to 80. -/
def directAddr (authority : AuthorityT) : Str :=
  authority.host ++ ":".toList ++ natToStr (authority.port.getD 80)

/-- connector.rs lines 87-93: the address dialled for an `Upstream` route
is `proxy_url.host_str().unwrap_or(""):port` with port defaulting to 80. -/
def upstreamAddr (proxyUrl : UrlT) : Str :=
  proxyUrl.host.getD [] ++ ":".toList ++ natToStr (proxyUrl.port.getD 80)

/-- The address a non-blocked route dials; `Blocked` dials nothing. -/
def routeAddr (authority : AuthorityT) : ProxyRouteT → Option Str
  | .direct => some (directAddr authority)
  | .upstream proxyUrl => some (upstreamAddr proxyUrl)
  | .blocked _ => none

/-- The error results of the connector's route loop:
`PermissionDenied` for a `Blocked` route (line 95) and
`TimedOut "All proxy routes failed"` when the loop exhausts the list
(lines 113-116). -/
inductive DialError
  | permissionDenied (reason : Str)
  | allRoutesFailed
deriving DecidableEq, Repr

/-- The `for route in routes` loop of `HyperConnector::call` (connector.rs
lines 81-116), returning both the ordered list of addresses on which a
TCP connect was attempted and the result (the address of the stream on
success). A `Blocked` route returns permission-denied at once; a connect
error or timeout falls through to the next route. -/
def dialTrace (net : Str → ConnectOutcome) (authority : AuthorityT) :
    List ProxyRouteT → List Str × Except DialError Str
  | [] => ([], .error .allRoutesFailed)
  | route :: rest =>
    match route with
    | .blocked reason => ([], .error (.permissionDenied reason))
    | .direct =>
      let addr := directAddr authority
      match net addr with
      | .success => ([addr], .ok addr)
      | _ =>
        let (trace, result) := dialTrace net authority rest
        (addr :: trace, result)
    | .upstream proxyUrl =>
      let addr := upstreamAddr proxyUrl
      match net addr with
      | .success => ([addr], .ok addr)
      | _ =>
        let (trace, result) := dialTrace net authority rest
        (addr :: trace, result)

/-- Errors surfaced by `HyperConnector::call` as `std::io::Error`. -/
inductive CallError
  | resolution (e : ProxyErrorT)
  | dialFailed (e : DialError)
deriving DecidableEq, Repr

/-- `HyperConnector::call` (connector.rs lines 58-118): when
`set_route_for_uri` seeded a cached route for this URI the loop runs over
the one-element list `vec![route]`; otherwise the full
`resolve_all_routes` list is used. -/
def connectorCall (net : Str → ConnectOutcome) (authority : AuthorityT)
    (cachedRoute : Option ProxyRouteT)
    (resolveAll : Except ProxyErrorT (List ProxyRouteT)) :
    List Str × Except CallError Str :=
  match cachedRoute with
  | some route =>
    let (trace, result) := dialTrace net authority [route]
    (trace, result.mapError .dialFailed)
  | none =>
    match resolveAll with
    | .error e => ([], .error (.resolution e))
    | .ok routes =>
      let (trace, result) := dialTrace net authority routes
      (trace, result.mapError .dialFailed)

/-- The transport path of a plain (non-CONNECT) HTTP request:
`ProxyService::handle_http_request` (service.rs lines 32-49) resolves a
single route with `resolve_route`, `HyperHttpClient::execute`
(http_client.rs line 73) seeds exactly that route into the connector's
route cache with `set_route_for_uri`, and the connector call then dials
with that cached route. `routes` is the list `resolve_all_routes`
produced for the target; `resolve_route` takes its head. -/
def handleHttpTransport (net : Str → ConnectOutcome) (authority : AuthorityT)
    (routes : List ProxyRouteT) : List Str × Except CallError Str :=
  match routes with
  | [] => ([], .error (.resolution (.resolutionFailed "No routes found".toList)))
  | route :: rest => connectorCall net authority (some route) (.ok (route :: rest))

/-! ## Credential provider (src/adapters/credentials/provider.rs) -/

/-- One strip step of the pattern fallback (provider.rs line 63):
`host.trim_start_matches('.').trim_start_matches(|ch| ch != '.')` — first
drop every leading `'.'`, then drop the leading run of non-`'.'`
characters (the following `'.'` is kept). -/
def hostStripStep (host : Str) : Str :=
  (host.dropWhile (fun c => c = '.')).dropWhile (fun c => c ≠ '.')

/-- `rules.get(host)` on the rule map: exact key lookup. -/
def rulesLookup (rules : List (Str × CredentialsT)) (host : Str) :
    Option CredentialsT :=
  (rules.find? (fun e => e.1 = host)).map (fun e => e.2)

/-- `CredentialProvider::find_credentials_for_host` (provider.rs lines
49-70) with explicit fuel (the recursion strictly shortens the host, so
`host.length + 1` fuel always suffices): empty host gives `None`; exact
match wins; otherwise recurse on the stripped host when it is a shorter
nonempty string. -/
def findCredAux (rules : List (Str × CredentialsT)) :
    Nat → Str → Option CredentialsT
  | 0, _ => none
  | fuel + 1, host =>
    if host = [] then none
    else
      match rulesLookup rules host with
      | some c => some c
      | none =>
        let trimmed := hostStripStep host
        if trimmed ≠ host ∧ trimmed ≠ [] then findCredAux rules fuel trimmed
        else none

/-- `CredentialProvider::find_credentials_for_host`. -/
def findCredentialsForHost (rules : List (Str × CredentialsT)) (host : Str) :
    Option CredentialsT :=
  findCredAux rules (host.length + 1) host

/-- The ordered sequence of keys the lookup probes against the rule map,
following the same recursion as `find_credentials_for_host`. -/
def probedKeysAux : Nat → Str → List Str
  | 0, _ => []
  | fuel + 1, host =>
    if host = [] then []
    else
      host ::
        (let trimmed := hostStripStep host
         if trimmed ≠ host ∧ trimmed ≠ [] then probedKeysAux fuel trimmed
         else [])

/-- Keys probed in order for a given input host. -/
def probedKeys (host : Str) : List Str :=
  probedKeysAux (host.length + 1) host

/-! ## Basic auth (src/domain/models.rs, Credentials::to_basic_auth) -/

/-- UTF-8 encoding of one character (Rust `String` bytes). -/
def utf8Char (c : Char) : List Nat :=
  let n := c.toNat
  if n < 0x80 then [n]
  else if n < 0x800 then
    [0xC0 ||| (n >>> 6), 0x80 ||| (n &&& 0x3F)]
  else if n < 0x10000 then
    [0xE0 ||| (n >>> 12), 0x80 ||| ((n >>> 6) &&& 0x3F), 0x80 ||| (n &&& 0x3F)]
  else
    [0xF0 ||| (n >>> 18), 0x80 ||| ((n >>> 12) &&& 0x3F),
     0x80 ||| ((n >>> 6) &&& 0x3F), 0x80 ||| (n &&& 0x3F)]

/-- The UTF-8 bytes of a string. -/
def utf8Bytes (s : Str) : List Nat :=
  (s.map utf8Char).flatten

/-- The standard base64 alphabet used by `BASE64_STANDARD`. -/
def base64Alphabet : Str :=
  "ABCDEFGHIJKLMNOPQRSTUVWXYZabcdefghijklmnopqrstuvwxyz0123456789+/".toList

/-- Character for a 6-bit group. -/
def b64Char (n : Nat) : Char :=
  base64Alphabet.getD n 'A'

/-- Standard base64 with `=` padding, three input bytes per four output
characters. -/
def base64Encode : List Nat → Str
  | [] => []
  | [a] =>
    [b64Char (a >>> 2), b64Char ((a &&& 3) <<< 4), '=', '=']
  | [a, b] =>
    [b64Char (a >>> 2), b64Char (((a &&& 3) <<< 4) ||| (b >>> 4)),
     b64Char ((b &&& 15) <<< 2), '=']
  | a :: b :: c :: rest =>
    b64Char (a >>> 2) :: b64Char (((a &&& 3) <<< 4) ||| (b >>> 4)) ::
      b64Char (((b &&& 15) <<< 2) ||| (c >>> 6)) :: b64Char (c &&& 63) ::
      base64Encode rest

/-- `Credentials::to_basic_auth` (models.rs lines 207-211):
`"Basic " + base64(username:password)`. -/
def toBasicAuth (c : CredentialsT) : Str :=
  "Basic ".toList ++
    base64Encode (utf8Bytes (c.username ++ ":".toList ++ c.password))

/-! ## Proxy service (src/domain/service.rs) -/

/-- `ProxyService::get_credentials_for_route` (service.rs lines 79-90):
only an `Upstream` route with a host consults the credentials port, keyed
by the route's proxy host; `Direct` and `Blocked` yield `None`. The
credentials port is the oracle `getCreds`. -/
def getCredentialsForRoute (getCreds : Str → Option CredentialsT) :
    ProxyRouteT → Option CredentialsT
  | .upstream proxyUrl =>
    match proxyUrl.host with
    | some h => getCreds h
    | none => none
  | _ => none

/-- The `Proxy-Authorization` header value that
`HyperHttpClient::build_hyper_request` (http_client.rs lines 48-56) and
`establish_tunnel` (adapter.rs lines 202-207) put on the outbound
request: present exactly when the route is `Upstream` and credentials
exist, with value `to_basic_auth`. -/
def proxyAuthHeaderFor (route : ProxyRouteT) (creds : Option CredentialsT) :
    Option Str :=
  match route, creds with
  | .upstream _, some c => some (toBasicAuth c)
  | _, _ => none

/-! ## CONNECT tunnel (src/adapters/hyper_server/adapter.rs,
establish_tunnel, Upstream arm, lines 197-233)

The Upstream arm builds a CONNECT request to the upstream proxy (adding
`Proxy-Authorization` when credentials exist), spawns a background task
that performs it, and returns the `200` response to the client without
awaiting anything from that task. Inside the task, the CONNECT is sent;
on a response, `hyper::upgrade::on` succeeds only for a successful
CONNECT reply, then the client stream is upgraded and the two streams are
spliced. -/

/-- What the upstream proxy does with the background CONNECT:
the TCP/request itself fails, or a response arrives whose upgrade either
succeeds (successful CONNECT reply) or fails. -/
inductive UpstreamTunnelOutcome
  | connectFailed
  | response (upgraded : Bool)
deriving DecidableEq, Repr

/-- Observable behaviour of the Upstream arm of `establish_tunnel`:
the status returned to the client, whether a CONNECT was issued to the
upstream, its `Proxy-Authorization` header, and whether the two streams
ended up spliced by the background task. -/
structure TunnelRun where
  clientStatus : Nat
  connectSent : Bool
  proxyAuthHeader : Option Str
  spliced : Bool
deriving DecidableEq, Repr

/-- The Upstream arm of `establish_tunnel`: the `200` is produced
unconditionally at lines 229-232 while the spawned task (lines 209-227)
handles the upstream CONNECT; splicing happens only when the upstream
response upgrades and the client stream upgrade (`clientUpgradeOk`)
succeeds. -/
def establishTunnelUpstream (creds : Option CredentialsT)
    (outcome : UpstreamTunnelOutcome) (clientUpgradeOk : Bool) : TunnelRun :=
  { clientStatus := 200
    connectSent := true
    proxyAuthHeader := creds.map toBasicAuth
    spliced :=
      match outcome with
      | .response true => clientUpgradeOk
      | _ => false }

/-! ## Network detectors (src/adapters/pac_resolver/{gateway,beacon,resolvconf}.rs) -/

/-- `GatewayRule` (domain model; config `[[gateway_rules]]`). -/
structure GatewayRuleT where
  defaultRouteInterface : Str
  interfaceIpSubnet : Option Str
  pacUrl : Str
  whenMatch : Option Str
  whenNoMatch : Option Str
deriving DecidableEq, Repr

/-- `PacRule` (models.rs lines 265-268; config `[[pac_rules]]`). -/
structure PacRuleT where
  beaconHost : Str
  pacUrl : Str
deriving DecidableEq, Repr

/-- `ResolvConfRule` (models.rs lines 271-276). -/
structure ResolvConfRuleT where
  resolverSubnet : Str
  pacUrl : Str
  whenMatch : Option Str
  whenNoMatch : Option Str
deriving DecidableEq, Repr

/-- Side effects of one detector refresh: the `update_pac_url` calls
issued to the resolver, in order, and the shell hook commands run. -/
structure DetectorEffects where
  updates : List (Option Str)
  hooks : List Str
deriving DecidableEq, Repr

/-- `GatewayListener::refresh_rules_static` (gateway.rs lines 40-134).
`matchesRule` is the oracle for one rule matching the current default
interface (wildcard match plus optional subnet check). The first matching
rule wins (`break` at line 90); the resolver is updated, and hooks run,
only when the computed PAC URL differs from `last_pac_url`; the function
returns the updated `last_pac_url` together with the effects. -/
def gatewayRefresh (matchesRule : GatewayRuleT → Bool)
    (rules : List GatewayRuleT) (lastPacUrl : Option Str) :
    Option Str × DetectorEffects :=
  let matchedRule := rules.find? matchesRule
  let newPacUrl := matchedRule.map (fun r => r.pacUrl)
  if newPacUrl ≠ lastPacUrl then
    (newPacUrl,
     { updates := [newPacUrl]
       hooks :=
         match matchedRule with
         | some r => r.whenMatch.toList
         | none => rules.filterMap (fun r => r.whenNoMatch) })
  else
    (lastPacUrl, { updates := [], hooks := [] })

/-- `BeaconPoller::select_pac_url` (beacon.rs lines 33-41): the first rule
whose beacon host resolves wins; `resolvable` is the DNS oracle. -/
def beaconSelectPacUrl (resolvable : Str → Bool) (rules : List PacRuleT) :
    Option Str :=
  (rules.find? (fun r => resolvable r.beaconHost)).map (fun r => r.pacUrl)

/-- `BeaconPoller::refresh_pac_url` (beacon.rs lines 43-47), run on every
3 s tick: it unconditionally calls `update_pac_url` with the selected
value — the poller keeps no record of what it pushed last. -/
def beaconRefresh (resolvable : Str → Bool) (rules : List PacRuleT) :
    DetectorEffects :=
  { updates := [beaconSelectPacUrl resolvable rules], hooks := [] }

/-- A nameserver entry of /etc/resolv.conf: IPv4 (abstracted to a number)
or IPv6 (ignored by the listener). -/
inductive ScopedIpT
  | v4 (ip : Nat)
  | v6
deriving DecidableEq, Repr

/-- The inner `for rule in rules` loop of
`ResolvConfListener::refresh_rules_static` (resolvconf.rs lines 81-99)
for one IPv4 nameserver: a containing rule issues `update_pac_url(Some)`
and its `when_match` hook, a non-containing rule with a `when_no_match`
hook runs it; the loop does not break, so every rule is visited.
`subnetContains` is the oracle for `rule.resolver_subnet.parse().contains(ip)`. -/
def resolvConfRuleStep (subnetContains : Str → Nat → Bool) (ip : Nat)
    (acc : DetectorEffects × Bool) (rule : ResolvConfRuleT) :
    DetectorEffects × Bool :=
  if subnetContains rule.resolverSubnet ip then
    ({ updates := acc.1.updates ++ [some rule.pacUrl]
       hooks := acc.1.hooks ++ rule.whenMatch.toList }, true)
  else
    ({ acc.1 with hooks := acc.1.hooks ++ rule.whenNoMatch.toList }, acc.2)

def resolvConfRulesPass (subnetContains : Str → Nat → Bool)
    (rules : List ResolvConfRuleT) (ip : Nat) : DetectorEffects × Bool :=
  rules.foldl (resolvConfRuleStep subnetContains ip)
    ({ updates := [], hooks := [] }, false)

/-- The outer `for ip in nameservers` loop (lines 78-102): each nameserver
is processed only while nothing has matched yet, and IPv6 entries are
skipped. -/
def resolvConfScan (subnetContains : Str → Nat → Bool)
    (rules : List ResolvConfRuleT) :
    List ScopedIpT → Bool → DetectorEffects → DetectorEffects × Bool
  | [], matched, acc => (acc, matched)
  | ip :: rest, matched, acc =>
    if matched then resolvConfScan subnetContains rules rest matched acc
    else
      match ip with
      | .v6 => resolvConfScan subnetContains rules rest matched acc
      | .v4 a =>
        let pass := resolvConfRulesPass subnetContains rules a
        resolvConfScan subnetContains rules rest pass.2
          { updates := acc.updates ++ pass.1.updates
            hooks := acc.hooks ++ pass.1.hooks }

/-- `ResolvConfListener::refresh_rules_static` (lines 67-109), run at
startup and on every debounced /etc/resolv.conf change: scan the
nameservers, and when nothing matched call `update_pac_url(None)`
(lines 104-106). No last-pushed value is consulted anywhere. -/
def resolvConfRefresh (subnetContains : Str → Nat → Bool)
    (rules : List ResolvConfRuleT) (nameservers : List ScopedIpT) :
    DetectorEffects :=
  let scanned :=
    resolvConfScan subnetContains rules nameservers false
      { updates := [], hooks := [] }
  if scanned.2 then scanned.1
  else { scanned.1 with updates := scanned.1.updates ++ [none] }

/-! ## Concrete fixtures used by witnesses -/

/-- A network in which the proxy `p1:3128` times out and everything else
connects. -/
def netEx : Str → ConnectOutcome :=
  fun a => if a = "p1:3128".toList then .timedOut else .success

/-- A network in which every TCP connect fails. -/
def netFailEx : Str → ConnectOutcome := fun _ => .connError

/-- A CONNECT authority `target.example:443`. -/
def authEx : AuthorityT := ⟨"target.example".toList, some 443⟩

/-- The proxy URL `http://p1:3128`. -/
def proxyUrlEx : UrlT := ⟨"http".toList, some "p1".toList, some 3128⟩

/-- An upstream route through `proxyUrlEx`. -/
def upEx : ProxyRouteT := .upstream proxyUrlEx

/-- A concrete credential pair. -/
def credEx : CredentialsT := ⟨"user".toList, "hunter2".toList⟩

/-- A rule map with the single suffix pattern `.example.net`. -/
def credRulesEx : List (Str × CredentialsT) := [(".example.net".toList, credEx)]

/-- A PAC fetch oracle that always returns a script. -/
def fetchEx : Str → Except ProxyErrorT Str :=
  fun _ => .ok "function FindProxyForURL(u, h)".toList

/-- A JavaScript oracle whose `FindProxyForURL` returns two directives. -/
def jsEx : Str → UrlT → Except ProxyErrorT Str :=
  fun _ _ => .ok "PROXY p1:3128; DIRECT".toList

/-- A target URL with a host. -/
def targetUrlEx : UrlT := ⟨"http".toList, some "host.example".toList, none⟩

/-- A gateway rule matching interfaces named `en*`. -/
def gwRuleEx : GatewayRuleT :=
  ⟨"en*".toList, none, "http://pac.corp.example/proxy.pac".toList, none, none⟩

/-- A rule-match oracle under which `gwRuleEx` matches. -/
def gwMatchEx : GatewayRuleT → Bool :=
  fun r => r.defaultRouteInterface = "en*".toList

/-- A beacon rule. -/
def beaconRuleEx : PacRuleT :=
  ⟨"beacon.corp.example".toList, "http://pac.corp.example/proxy.pac".toList⟩

/-- A resolv.conf rule. -/
def rcRuleEx : ResolvConfRuleT :=
  ⟨"10.0.0.0/8".toList, "http://pac.corp.example/proxy.pac".toList, none, none⟩

/-! # Theorems -/

/-! ## Shared helper lemmas -/

/-- Quote removal is the identity on strings without a double quote. -/
theorem stripQuotes_of_not_mem {s : Str} (h : '"' ∉ s) : stripQuotes s = s := by
  unfold stripQuotes
  rw [List.filter_eq_self]
  intro a ha
  simp only [ne_eq, decide_eq_true_eq]
  intro hc
  exact h (hc ▸ ha)

/-- Quote removal is idempotent. -/
theorem stripQuotes_idem (s : Str) : stripQuotes (stripQuotes s) = stripQuotes s := by
  apply stripQuotes_of_not_mem
  intro hmem
  have := List.of_mem_filter hmem
  simp at this

/-- `collectRoutes` succeeds with as many routes as it was given tokens. -/
theorem collectRoutes_ok_length {l : List Str} {r : List ProxyRouteT}
    (h : collectRoutes l = .ok r) : r.length = l.length := by
  induction l generalizing r with
  | nil =>
    rw [collectRoutes] at h
    injection h with h2
    rw [← h2]
    rfl
  | cons s rest ih =>
    rw [collectRoutes] at h
    cases hp : parseProxyRoute s with
    | error e => rw [hp] at h; exact absurd h (by simp)
    | ok rr =>
      rw [hp] at h
      cases hc : collectRoutes rest with
      | error e => rw [hc] at h; exact absurd h (by simp)
      | ok rs =>
        rw [hc] at h
        injection h with h2
        rw [← h2, List.length_cons, List.length_cons, ih hc]

/-! ## C1: connector dial loop -/

/-- When no route is `Blocked` and every dialled address fails to
connect, the loop falls off the end with the timed-out error. -/
theorem dialTrace_all_fail (net : Str → ConnectOutcome) (authority : AuthorityT) :
    ∀ routes : List ProxyRouteT,
      (∀ addr ∈ routes.filterMap (routeAddr authority), net addr ≠ .success) →
      (∀ r ∈ routes, routeAddr authority r ≠ none) →
      (dialTrace net authority routes).2 = .error .allRoutesFailed := by
  intro routes
  induction routes with
  | nil => intro _ _; rfl
  | cons r rest ih =>
    intro hfail hnb
    cases r with
    | blocked reason =>
      exact absurd rfl (hnb _ (List.mem_cons_self _ _))
    | direct =>
      have hf : net (directAddr authority) ≠ .success := by
        apply hfail
        simp [routeAddr]
      have hrec := ih
        (fun addr ha => hfail addr (by simp [routeAddr] at ha ⊢; exact Or.inr ha))
        (fun r hr => hnb r (List.mem_cons_of_mem _ hr))
      cases h : net (directAddr authority) with
      | success => exact absurd h hf
      | connError => simp only [dialTrace, h]; exact hrec
      | timedOut => simp only [dialTrace, h]; exact hrec
    | upstream proxyUrl =>
      have hf : net (upstreamAddr proxyUrl) ≠ .success := by
        apply hfail
        simp [routeAddr]
      have hrec := ih
        (fun addr ha => hfail addr (by simp [routeAddr] at ha ⊢; exact Or.inr ha))
        (fun r hr => hnb r (List.mem_cons_of_mem _ hr))
      cases h : net (upstreamAddr proxyUrl) with
      | success => exact absurd h hf
      | connError => simp only [dialTrace, h]; exact hrec
      | timedOut => simp only [dialTrace, h]; exact hrec

/-- C1: the connector's dial loop attempts routes strictly in order under
the 200 ms per-attempt timeout: a successful connect returns that route's
stream at once, a connect error or timeout falls through to the next
route, a `Blocked` route returns permission-denied immediately without
attempting any later route, and an exhausted list returns the timed-out
"all routes failed" error. -/
theorem connector_dial_in_order_c1 :
    timeoutDurationMillis = 200 ∧
    (∀ (net : Str → ConnectOutcome) (authority : AuthorityT) (reason : Str)
        (rest : List ProxyRouteT),
      dialTrace net authority (.blocked reason :: rest) =
        ([], .error (.permissionDenied reason))) ∧
    (∀ (net : Str → ConnectOutcome) (authority : AuthorityT)
        (route : ProxyRouteT) (addr : Str) (rest : List ProxyRouteT),
      routeAddr authority route = some addr → net addr = .success →
      dialTrace net authority (route :: rest) = ([addr], .ok addr)) ∧
    (∀ (net : Str → ConnectOutcome) (authority : AuthorityT)
        (route : ProxyRouteT) (addr : Str) (rest : List ProxyRouteT),
      routeAddr authority route = some addr → net addr ≠ .success →
      dialTrace net authority (route :: rest) =
        (addr :: (dialTrace net authority rest).1,
         (dialTrace net authority rest).2)) ∧
    (∀ (net : Str → ConnectOutcome) (authority : AuthorityT),
      dialTrace net authority [] = ([], .error .allRoutesFailed)) ∧
    (∀ (net : Str → ConnectOutcome) (authority : AuthorityT)
        (routes : List ProxyRouteT),
      (∀ addr ∈ routes.filterMap (routeAddr authority), net addr ≠ .success) →
      (∀ r ∈ routes, routeAddr authority r ≠ none) →
      (dialTrace net authority routes).2 = .error .allRoutesFailed) := by
  refine ⟨rfl, fun _ _ _ _ => rfl, ?_, ?_, fun _ _ => rfl,
    fun net authority routes => dialTrace_all_fail net authority routes⟩
  · intro net authority route addr rest haddr hnet
    cases route with
    | blocked reason => exact absurd haddr (by simp [routeAddr])
    | direct =>
      rw [routeAddr] at haddr
      injection haddr with h2
      rw [← h2] at hnet ⊢
      simp [dialTrace, hnet]
    | upstream proxyUrl =>
      rw [routeAddr] at haddr
      injection haddr with h2
      rw [← h2] at hnet ⊢
      simp [dialTrace, hnet]
  · intro net authority route addr rest haddr hnet
    cases route with
    | blocked reason => exact absurd haddr (by simp [routeAddr])
    | direct =>
      rw [routeAddr] at haddr
      injection haddr with h2
      rw [← h2] at hnet ⊢
      cases h : net (directAddr authority) with
      | success => exact absurd h hnet
      | connError => simp [dialTrace, h]
      | timedOut => simp [dialTrace, h]
    | upstream proxyUrl =>
      rw [routeAddr] at haddr
      injection haddr with h2
      rw [← h2] at hnet ⊢
      cases h : net (upstreamAddr proxyUrl) with
      | success => exact absurd h hnet
      | connError => simp [dialTrace, h]
      | timedOut => simp [dialTrace, h]

/-- C1 witness: on a network where `p1:3128` times out, the dial of
`[upstream p1, Direct]` first attempts the proxy address, falls through,
then succeeds directly; and a `Blocked` head returns permission-denied. -/
theorem connector_dial_in_order_c1_witness :
    dialTrace netEx authEx [upEx, .direct] =
      ("p1:3128".toList :: (dialTrace netEx authEx [.direct]).1,
       (dialTrace netEx authEx [.direct]).2) ∧
    dialTrace netEx authEx [.direct] =
      (["target.example:443".toList], .ok "target.example:443".toList) ∧
    dialTrace netEx authEx [.blocked "policy".toList, .direct] =
      ([], .error (.permissionDenied "policy".toList)) ∧
    (dialTrace netFailEx authEx [upEx, .direct]).2 =
      .error .allRoutesFailed := by
  refine ⟨?_, ?_, ?_, ?_⟩
  · exact connector_dial_in_order_c1.2.2.2.1 netEx authEx upEx "p1:3128".toList
      [.direct] (by decide) (by decide)
  · exact connector_dial_in_order_c1.2.2.1 netEx authEx .direct
      "target.example:443".toList [] (by decide) (by decide)
  · exact connector_dial_in_order_c1.2.1 netEx authEx "policy".toList [.direct]
  · exact connector_dial_in_order_c1.2.2.2.2.2 netFailEx authEx [upEx, .direct]
      (by decide) (by decide)

/-! ## C2: route list non-emptiness -/

/-- C2: with a null PAC URL, `resolve_all_routes` returns exactly
`[Direct]`; the evaluator never yields an empty directive list (an empty
parsed list is replaced by `[direct://]`); and every successful resolution
produces a non-empty route list. -/
theorem pac_route_list_nonempty_c2 :
    (∀ (fetch : Str → Except ProxyErrorT Str)
        (js : Str → UrlT → Except ProxyErrorT Str) (targetUrl : UrlT),
      resolveAllRoutes fetch js none targetUrl = .ok [.direct]) ∧
    (∀ s : Str, evaluatePacDirectives s ≠ []) ∧
    (∀ s : Str, parseDirectives s = [] →
      evaluatePacDirectives s = ["direct://".toList]) ∧
    (∀ (fetch : Str → Except ProxyErrorT Str)
        (js : Str → UrlT → Except ProxyErrorT Str) (pacUrl : Option Str)
        (targetUrl : UrlT) (routes : List ProxyRouteT),
      resolveAllRoutes fetch js pacUrl targetUrl = .ok routes →
      routes ≠ []) := by
  have hne : ∀ s : Str, evaluatePacDirectives s ≠ [] := by
    intro s
    by_cases hp : parseDirectives s = []
    · simp [evaluatePacDirectives, hp]
    · simp [evaluatePacDirectives, hp]
  refine ⟨fun _ _ _ => rfl, hne, ?_, ?_⟩
  · intro s h
    simp [evaluatePacDirectives, h]
  · intro fetch js pacUrl targetUrl routes h
    cases pacUrl with
    | none =>
      rw [resolveAllRoutes] at h
      injection h with h2
      rw [← h2]
      simp
    | some url =>
      rw [resolveAllRoutes, resolveWithPac] at h
      cases hf : fetch url with
      | error e => rw [hf] at h; exact absurd h (by simp)
      | ok pacFile =>
        rw [hf] at h
        simp only [evaluatePac] at h
        cases hh : targetUrl.host with
        | none => rw [hh] at h; exact absurd h (by simp)
        | some hostStr =>
          rw [hh] at h
          cases hj : js pacFile targetUrl with
          | error e => rw [hj] at h; exact absurd h (by simp)
          | ok resultString =>
            rw [hj] at h
            have hlen := collectRoutes_ok_length h
            intro hnil
            rw [hnil] at hlen
            exact hne resultString (List.length_eq_zero.mp hlen.symm)

/-- C2 witness: a null PAC URL yields `[Direct]`, the empty result string
parses to the `direct://` fallback, and a concrete successful resolution
yields a non-empty route list. -/
theorem pac_route_list_nonempty_c2_witness :
    resolveAllRoutes fetchEx jsEx none targetUrlEx = .ok [.direct] ∧
    evaluatePacDirectives "".toList = ["direct://".toList] ∧
    ([ProxyRouteT.upstream proxyUrlEx, .direct] : List ProxyRouteT) ≠ [] := by
  refine ⟨pac_route_list_nonempty_c2.1 fetchEx jsEx targetUrlEx,
    pac_route_list_nonempty_c2.2.2.1 "".toList (by decide), ?_⟩
  exact pac_route_list_nonempty_c2.2.2.2 fetchEx jsEx
    (some "http://pac.corp.example/proxy.pac".toList) targetUrlEx
    [ProxyRouteT.upstream proxyUrlEx, .direct] (by decide)

/-! ## C3: PAC directive parsing -/

/-- C3: the evaluator splits the result string on `;`, trims each item,
drops empty items, and maps each remaining item by its first
whitespace-separated token — `DIRECT` to `direct://`, `PROXY host:port`
to `http://host:port`, `PROXY` with no following token to `direct://`,
and any other first token to `direct://`. (Quote characters are removed
first; on quote-free strings the pipeline is exactly as described.) -/
theorem pac_directive_mapping_c3 :
    (∀ s : Str, '"' ∉ s →
      parseDirectives s =
        (((splitOnChar ';' s).map trimStr).filter (fun v => v ≠ [])).map
          interpretDirective) ∧
    (∀ v : Str, splitWhitespaceParts v = [] →
      interpretDirective v = "direct://".toList) ∧
    (∀ (v : Str) (rest : List Str),
      splitWhitespaceParts v = "DIRECT".toList :: rest →
      interpretDirective v = "direct://".toList) ∧
    (∀ (v hostPort : Str) (rest : List Str),
      splitWhitespaceParts v = "PROXY".toList :: hostPort :: rest →
      interpretDirective v = "http://".toList ++ hostPort) ∧
    (∀ v : Str, splitWhitespaceParts v = ["PROXY".toList] →
      interpretDirective v = "direct://".toList) ∧
    (∀ (v first : Str) (rest : List Str),
      splitWhitespaceParts v = first :: rest →
      first ≠ "DIRECT".toList → first ≠ "PROXY".toList →
      interpretDirective v = "direct://".toList) := by
  refine ⟨?_, ?_, ?_, ?_, ?_, ?_⟩
  · intro s h
    unfold parseDirectives
    rw [stripQuotes_of_not_mem h]
  · intro v h
    unfold interpretDirective
    rw [h]
  · intro v rest h
    unfold interpretDirective
    rw [h]
    simp
  · intro v hostPort rest h
    unfold interpretDirective
    rw [h]
    simp
  · intro v h
    unfold interpretDirective
    rw [h]
    simp
  · intro v first rest h h1 h2
    unfold interpretDirective
    rw [h]
    simp only []
    rw [if_neg h1, if_neg h2]

/-- C3 witness: the pipeline equality holds at a concrete quote-free
result string, and each token shape maps as claimed on concrete items. -/
theorem pac_directive_mapping_c3_witness :
    parseDirectives "PROXY proxy.example:3128; DIRECT ;; UNKNOWN x; PROXY".toList =
      (((splitOnChar ';' "PROXY proxy.example:3128; DIRECT ;; UNKNOWN x; PROXY".toList).map
          trimStr).filter (fun v => v ≠ [])).map interpretDirective ∧
    interpretDirective "PROXY proxy.example:3128".toList =
      "http://".toList ++ "proxy.example:3128".toList ∧
    interpretDirective "DIRECT".toList = "direct://".toList ∧
    interpretDirective "PROXY".toList = "direct://".toList ∧
    interpretDirective "UNKNOWN x".toList = "direct://".toList := by
  refine ⟨pac_directive_mapping_c3.1 _ (by decide),
    pac_directive_mapping_c3.2.2.2.1 _ "proxy.example:3128".toList [] (by decide),
    pac_directive_mapping_c3.2.2.1 _ [] (by decide),
    pac_directive_mapping_c3.2.2.2.2.1 _ (by decide),
    pac_directive_mapping_c3.2.2.2.2.2 _ "UNKNOWN".toList ["x".toList]
      (by decide) (by decide) (by decide)⟩

/-! ## C10: double-quote stripping -/

/-- C10: the evaluator removes every double-quote character from the
whole result string before splitting and token interpretation, so two
result strings that agree after quote removal — in particular a quoted
directive and its unquoted form — parse identically. -/
theorem pac_quote_stripping_c10 :
    (∀ s : Str, parseDirectives s = parseDirectives (stripQuotes s)) ∧
    (∀ s t : Str, stripQuotes s = stripQuotes t →
      parseDirectives s = parseDirectives t) := by
  have hresp : ∀ s t : Str, stripQuotes s = stripQuotes t →
      parseDirectives s = parseDirectives t := by
    intro s t h
    unfold parseDirectives
    rw [h]
  exact ⟨fun s => hresp s (stripQuotes s) (stripQuotes_idem s).symm, hresp⟩

/-- C10 witness: a PAC result with literal quote characters parses
exactly as its unquoted form. -/
theorem pac_quote_stripping_c10_witness :
    parseDirectives "\"PROXY proxy.example:3128; DIRECT\"".toList =
      parseDirectives "PROXY proxy.example:3128; DIRECT".toList :=
  pac_quote_stripping_c10.2 _ _ (by decide)

/-! ## C4: PAC URL swap clears the script cache -/

/-- One resolver operation preserves the cache-key invariant. -/
theorem cacheKeysCurrent_apply {st : ResolverStateT}
    (h : cacheKeysCurrent st) (op : ResolverOp) :
    cacheKeysCurrent (applyResolverOp st op) := by
  cases op with
  | updatePacUrl u =>
    intro e he
    simp [applyResolverOp] at he
  | resolveTouch fetched =>
    cases hp : st.pacUrl with
    | none =>
      simp only [applyResolverOp, hp]
      exact h
    | some u =>
      simp only [applyResolverOp, hp]
      cases hf : st.pacCache.find? (fun e => e.1 = u) with
      | some found =>
        simp only [hf]
        intro e he
        rw [lruGetReorder, hf] at he
        rcases List.mem_cons.mp he with he | he
        · have hfound := List.find?_some hf
          simp only [decide_eq_true_eq] at hfound
          rw [he, hfound]
        · rw [h e (List.mem_of_mem_filter he), hp]
      | none =>
        simp only [hf]
        intro e he
        rw [lruPut] at he
        have he2 := List.mem_of_mem_take he
        rcases List.mem_cons.mp he2 with he2 | he2
        · rw [he2]
        · rw [h e (List.mem_of_mem_filter he2), hp]

/-- The invariant holds along any fold of resolver operations. -/
theorem cacheKeysCurrent_foldl (ops : List ResolverOp) :
    ∀ st : ResolverStateT, cacheKeysCurrent st →
      cacheKeysCurrent (ops.foldl applyResolverOp st) := by
  induction ops with
  | nil => intro st h; exact h
  | cons op rest ih =>
    intro st h
    exact ih _ (cacheKeysCurrent_apply h op)

/-- C4: `update_pac_url` stores the new PAC URL and atomically clears the
script cache; along any serialised history of updates and resolutions,
every cache entry is keyed by the currently active PAC URL, so a
resolution can never observe the new PAC URL together with a script
cached under the old one. -/
theorem pac_url_swap_clears_cache_c4 :
    (∀ (st : ResolverStateT) (u : Option Str),
      applyResolverOp st (.updatePacUrl u) = { pacUrl := u, pacCache := [] }) ∧
    (∀ ops : List ResolverOp, cacheKeysCurrent (runResolverOps ops)) := by
  refine ⟨fun _ _ => rfl, ?_⟩
  intro ops
  apply cacheKeysCurrent_foldl
  intro e he
  simp [initialResolverState] at he

/-- C4 witness: swapping the PAC URL on a state with a warm cache leaves
an empty cache, and the invariant holds on a concrete history that
populates the cache and then swaps the URL. -/
theorem pac_url_swap_clears_cache_c4_witness :
    applyResolverOp
        ⟨some "http://pac.a/p.pac".toList,
         [("http://pac.a/p.pac".toList, "SCRIPT".toList)]⟩
        (.updatePacUrl (some "http://pac.b/p.pac".toList)) =
      ⟨some "http://pac.b/p.pac".toList, []⟩ ∧
    cacheKeysCurrent (runResolverOps
      [.updatePacUrl (some "http://pac.a/p.pac".toList),
       .resolveTouch "SCRIPT".toList,
       .updatePacUrl (some "http://pac.b/p.pac".toList),
       .resolveTouch "SCRIPT2".toList]) :=
  ⟨pac_url_swap_clears_cache_c4.1 _ _, pac_url_swap_clears_cache_c4.2 _⟩

/-! ## C5: credential suffix fallback -/

/-- `dropWhile` never lengthens a list. -/
theorem length_dropWhile_le_self (p : Char → Bool) (l : Str) :
    (l.dropWhile p).length ≤ l.length := by
  induction l with
  | nil => exact Nat.le_refl _
  | cons a l ih =>
    by_cases h : p a
    · simp only [List.dropWhile_cons, h, if_true]
      exact Nat.le_succ_of_le ih
    · simp [List.dropWhile_cons, h]

/-- `dropWhile` either leaves the list unchanged or strictly shortens it. -/
theorem dropWhile_eq_self_or_length_lt (p : Char → Bool) (l : Str) :
    l.dropWhile p = l ∨ (l.dropWhile p).length < l.length := by
  cases l with
  | nil => exact Or.inl rfl
  | cons a l =>
    by_cases h : p a
    · right
      simp only [List.dropWhile_cons, h, if_true]
      exact Nat.lt_succ_of_le (length_dropWhile_le_self p l)
    · left
      simp [List.dropWhile_cons, h]

/-- A strip step that changes the host strictly shortens it. -/
theorem hostStripStep_length_lt {host : Str} (h : hostStripStep host ≠ host) :
    (hostStripStep host).length < host.length := by
  unfold hostStripStep at h ⊢
  rcases dropWhile_eq_self_or_length_lt (fun c => c = '.') host with h1 | h1
  · rw [h1] at h ⊢
    rcases dropWhile_eq_self_or_length_lt (fun c => c ≠ '.') host with h2 | h2
    · exact absurd h2 h
    · exact h2
  · calc ((host.dropWhile (fun c => c = '.')).dropWhile (fun c => c ≠ '.')).length
        ≤ (host.dropWhile (fun c => c = '.')).length :=
          length_dropWhile_le_self _ _
      _ < host.length := h1

/-- Any fuel above the host length computes `find_credentials_for_host`. -/
theorem findCredAux_fuel (rules : List (Str × CredentialsT)) :
    ∀ fuel host, host.length < fuel →
      findCredAux rules fuel host = findCredentialsForHost rules host := by
  intro fuel
  induction fuel using Nat.strong_induction_on with
  | _ fuel ih =>
    intro host hlt
    cases fuel with
    | zero => exact absurd hlt (Nat.not_lt_zero _)
    | succ f =>
      unfold findCredentialsForHost
      by_cases hempty : host = []
      · simp [findCredAux, hempty]
      · simp only [findCredAux, if_neg hempty]
        cases hlook : rulesLookup rules host with
        | some c => rfl
        | none =>
          by_cases hcond : hostStripStep host ≠ host ∧ hostStripStep host ≠ []
          · rw [if_pos hcond, if_pos hcond]
            have hshort : (hostStripStep host).length < host.length :=
              hostStripStep_length_lt hcond.1
            have h1 : findCredAux rules f (hostStripStep host) =
                findCredentialsForHost rules (hostStripStep host) :=
              ih f (Nat.lt_succ_self f) _ (Nat.lt_of_lt_of_le hshort (Nat.lt_succ_iff.mp hlt))
            have h2 : findCredAux rules host.length (hostStripStep host) =
                findCredentialsForHost rules (hostStripStep host) :=
              ih host.length hlt _ hshort
            rw [h1, h2]
          · rw [if_neg hcond, if_neg hcond]

/-- Any fuel above the host length computes `probedKeys`. -/
theorem probedKeysAux_fuel :
    ∀ fuel host, host.length < fuel →
      probedKeysAux fuel host = probedKeys host := by
  intro fuel
  induction fuel using Nat.strong_induction_on with
  | _ fuel ih =>
    intro host hlt
    cases fuel with
    | zero => exact absurd hlt (Nat.not_lt_zero _)
    | succ f =>
      unfold probedKeys
      by_cases hempty : host = []
      · simp [probedKeysAux, hempty]
      · simp only [probedKeysAux, if_neg hempty]
        by_cases hcond : hostStripStep host ≠ host ∧ hostStripStep host ≠ []
        · rw [if_pos hcond, if_pos hcond]
          have hshort : (hostStripStep host).length < host.length :=
            hostStripStep_length_lt hcond.1
          rw [ih f (Nat.lt_succ_self f) _ (Nat.lt_of_lt_of_le hshort (Nat.lt_succ_iff.mp hlt)),
            ih host.length hlt _ hshort]
        · rw [if_neg hcond, if_neg hcond]

/-- C5 counterexample: the fallback keys keep a leading dot — the lookup
for `a.b.example.net` probes `.b.example.net`, `.example.net`, `.net`
(never the claimed `b.example.net`, `example.net`, `net`), so a rule
keyed `b.example.net` is not found for `a.b.example.net`. -/
theorem credential_fallback_counterexample_c5 :
    findCredentialsForHost
        [("b.example.net".toList, ⟨"user".toList, "pw".toList⟩)]
        "a.b.example.net".toList = none ∧
    probedKeys "a.b.example.net".toList =
      ["a.b.example.net".toList, ".b.example.net".toList,
       ".example.net".toList, ".net".toList] := by
  decide

/-- C5 (amended): credential lookup first tries an exact match on the
host; otherwise it strips the leading dots, then the leading run of
non-dot characters (keeping the following dot), and recurses on the
strictly shorter remainder when it is nonempty — so `a.b.example.net`
falls back to exactly `.b.example.net`, `.example.net`, `.net`; the
empty host yields `None`. -/
theorem credential_suffix_fallback_c5 :
    (∀ rules : List (Str × CredentialsT),
      findCredentialsForHost rules [] = none) ∧
    (∀ (rules : List (Str × CredentialsT)) (host : Str) (c : CredentialsT),
      host ≠ [] → rulesLookup rules host = some c →
      findCredentialsForHost rules host = some c) ∧
    (∀ (rules : List (Str × CredentialsT)) (host : Str),
      host ≠ [] → rulesLookup rules host = none →
      findCredentialsForHost rules host =
        (if hostStripStep host ≠ host ∧ hostStripStep host ≠ [] then
          findCredentialsForHost rules (hostStripStep host)
        else none)) ∧
    (∀ host : Str, hostStripStep host ≠ host →
      (hostStripStep host).length < host.length) ∧
    (probedKeys "a.b.example.net".toList =
      ["a.b.example.net".toList, ".b.example.net".toList,
       ".example.net".toList, ".net".toList]) := by
  refine ⟨fun rules => rfl, ?_, ?_, fun host h => hostStripStep_length_lt h, by decide⟩
  · intro rules host c hne hlook
    unfold findCredentialsForHost
    simp only [findCredAux, if_neg hne, hlook]
  · intro rules host hne hlook
    conv_lhs => unfold findCredentialsForHost
    simp only [findCredAux, if_neg hne, hlook]
    by_cases hcond : hostStripStep host ≠ host ∧ hostStripStep host ≠ []
    · rw [if_pos hcond, if_pos hcond]
      exact findCredAux_fuel rules host.length (hostStripStep host)
        (hostStripStep_length_lt hcond.1)
    · rw [if_neg hcond, if_neg hcond]

/-- C5 witness: for host `ssl.example.net` with the rule map
`{.example.net}`, the exact match misses, the lookup recurses on
`.example.net`, and the exact match there hits. -/
theorem credential_suffix_fallback_c5_witness :
    findCredentialsForHost credRulesEx "ssl.example.net".toList =
      findCredentialsForHost credRulesEx ".example.net".toList ∧
    findCredentialsForHost credRulesEx ".example.net".toList = some credEx := by
  constructor
  · have h3 := credential_suffix_fallback_c5.2.2.1 credRulesEx
      "ssl.example.net".toList (by decide) (by decide)
    rw [h3]
    decide
  · exact credential_suffix_fallback_c5.2.1 credRulesEx ".example.net".toList
      credEx (by decide) (by decide)

/-! ## C6: detector change detection -/

/-- Folding the resolvconf rule step keeps a nonempty update list once
the matched flag is set. -/
theorem resolvConfRuleStep_foldl_updates (subnetContains : Str → Nat → Bool)
    (ip : Nat) (rules : List ResolvConfRuleT) :
    ∀ acc : DetectorEffects × Bool,
      (acc.2 = true → acc.1.updates ≠ []) →
      ((rules.foldl (resolvConfRuleStep subnetContains ip) acc).2 = true →
        (rules.foldl (resolvConfRuleStep subnetContains ip) acc).1.updates ≠ []) := by
  induction rules with
  | nil => intro acc h; exact h
  | cons rule rest ih =>
    intro acc h
    rw [List.foldl_cons]
    apply ih
    unfold resolvConfRuleStep
    by_cases hc : subnetContains rule.resolverSubnet ip
    · rw [if_pos hc]
      intro _
      simp
    · rw [if_neg hc]
      exact h

/-- A matched rules pass has issued at least one update. -/
theorem resolvConfRulesPass_updates (subnetContains : Str → Nat → Bool)
    (rules : List ResolvConfRuleT) (ip : Nat) :
    (resolvConfRulesPass subnetContains rules ip).2 = true →
    (resolvConfRulesPass subnetContains rules ip).1.updates ≠ [] := by
  unfold resolvConfRulesPass
  exact resolvConfRuleStep_foldl_updates subnetContains ip rules _
    (by intro h; simp at h)

/-- The nameserver scan keeps a nonempty update list once matched. -/
theorem resolvConfScan_updates (subnetContains : Str → Nat → Bool)
    (rules : List ResolvConfRuleT) :
    ∀ (ns : List ScopedIpT) (matched : Bool) (acc : DetectorEffects),
      (matched = true → acc.updates ≠ []) →
      ((resolvConfScan subnetContains rules ns matched acc).2 = true →
        (resolvConfScan subnetContains rules ns matched acc).1.updates ≠ []) := by
  intro ns
  induction ns with
  | nil => intro matched acc h; exact h
  | cons ip rest ih =>
    intro matched acc h
    simp only [resolvConfScan]
    by_cases hm : matched
    · rw [if_pos hm]
      exact ih matched acc h
    · rw [if_neg hm]
      cases ip with
      | v6 => exact ih matched acc h
      | v4 a =>
        apply ih
        intro hpass
        have := resolvConfRulesPass_updates subnetContains rules a hpass
        intro happ
        rcases List.append_eq_nil.mp happ with ⟨-, h2⟩
        exact this h2

/-- C6 counterexample: the beacon poller keeps no record of the last
pushed value and calls `update_pac_url` on every tick, so even a tick
whose computed PAC URL equals the previously pushed one performs a
`set_pac_url` call — refuting the claim for the beacon detector. -/
theorem detector_dedupe_counterexample_c6 :
    ¬ (∀ (resolvable : Str → Bool) (rules : List PacRuleT)
        (lastPushed : Option Str),
        beaconSelectPacUrl resolvable rules = lastPushed →
        (beaconRefresh resolvable rules).updates = []) := by
  intro h
  exact absurd
    (h (fun _ => true) [beaconRuleEx] (some beaconRuleEx.pacUrl) (by decide))
    (by decide)

/-- C6 (amended): only the gateway detector deduplicates — it calls
`set_pac_url` and runs hooks exactly when the newly computed PAC URL
differs from the value it last pushed; the beacon poller issues one
`update_pac_url` call on every tick regardless of history, and the
resolv.conf listener issues at least one `update_pac_url` call on every
refresh regardless of history. -/
theorem detector_change_detection_c6 :
    (∀ (matchesRule : GatewayRuleT → Bool) (rules : List GatewayRuleT)
        (lastPacUrl : Option Str),
      (rules.find? matchesRule).map (fun r => r.pacUrl) = lastPacUrl →
      gatewayRefresh matchesRule rules lastPacUrl =
        (lastPacUrl, { updates := [], hooks := [] })) ∧
    (∀ (matchesRule : GatewayRuleT → Bool) (rules : List GatewayRuleT)
        (lastPacUrl : Option Str),
      (rules.find? matchesRule).map (fun r => r.pacUrl) ≠ lastPacUrl →
      (gatewayRefresh matchesRule rules lastPacUrl).2.updates =
        [(rules.find? matchesRule).map (fun r => r.pacUrl)] ∧
      (gatewayRefresh matchesRule rules lastPacUrl).1 =
        (rules.find? matchesRule).map (fun r => r.pacUrl)) ∧
    (∀ (resolvable : Str → Bool) (rules : List PacRuleT),
      (beaconRefresh resolvable rules).updates =
        [beaconSelectPacUrl resolvable rules]) ∧
    (∀ (subnetContains : Str → Nat → Bool) (rules : List ResolvConfRuleT)
        (nameservers : List ScopedIpT),
      (resolvConfRefresh subnetContains rules nameservers).updates ≠ []) := by
  refine ⟨?_, ?_, fun _ _ => rfl, ?_⟩
  · intro matchesRule rules lastPacUrl h
    unfold gatewayRefresh
    rw [if_neg (fun hc => hc h)]
  · intro matchesRule rules lastPacUrl h
    unfold gatewayRefresh
    rw [if_pos h]
    exact ⟨rfl, rfl⟩
  · intro subnetContains rules nameservers
    unfold resolvConfRefresh
    by_cases hm : (resolvConfScan subnetContains rules nameservers false
        { updates := [], hooks := [] }).2
    · rw [if_pos hm]
      exact resolvConfScan_updates subnetContains rules nameservers false _
        (by intro h; simp at h) hm
    · rw [if_neg hm]
      simp

/-- C6 witness: a gateway tick recomputing the already-pushed PAC URL
performs no update and runs no hook; a changed value performs exactly one
update; and a resolv.conf refresh always issues an update. -/
theorem detector_change_detection_c6_witness :
    gatewayRefresh gwMatchEx [gwRuleEx] (some gwRuleEx.pacUrl) =
      (some gwRuleEx.pacUrl, { updates := [], hooks := [] }) ∧
    (gatewayRefresh gwMatchEx [gwRuleEx] none).2.updates =
      [some gwRuleEx.pacUrl] ∧
    (resolvConfRefresh (fun _ _ => false) [rcRuleEx] [.v4 1]).updates ≠ [] := by
  refine ⟨detector_change_detection_c6.1 gwMatchEx [gwRuleEx]
      (some gwRuleEx.pacUrl) (by decide), ?_, ?_⟩
  · have h := (detector_change_detection_c6.2.1 gwMatchEx [gwRuleEx] none
      (by decide)).1
    rw [h]
    decide
  · exact detector_change_detection_c6.2.2.2 (fun _ _ => false) [rcRuleEx]
      [.v4 1]

/-! ## C7: CONNECT-upstream 200 ordering -/

/-- C7 counterexample: the claim entails that a 200 reaching the client
implies the upstream CONNECT session was opened successfully; but the
Upstream arm of `establish_tunnel` returns the 200 unconditionally while
the upstream CONNECT runs in a spawned background task, so the client
receives 200 even when that CONNECT fails outright. -/
theorem connect_tunnel_counterexample_c7 :
    ¬ (∀ (creds : Option CredentialsT) (outcome : UpstreamTunnelOutcome)
        (clientUpgradeOk : Bool),
        (establishTunnelUpstream creds outcome clientUpgradeOk).clientStatus = 200 →
        outcome ≠ .connectFailed) := by
  intro h
  exact h none .connectFailed false rfl rfl

/-- C7 (amended): for an Upstream CONNECT route the dispatcher replies
200 immediately (for every upstream outcome, including failure) while a
background task sends the CONNECT — carrying `Proxy-Authorization`
exactly when credentials exist — and splices the two streams only when
the upstream's reply upgrades successfully and the client stream upgrade
succeeds. -/
theorem connect_tunnel_background_c7 :
    ∀ (creds : Option CredentialsT) (outcome : UpstreamTunnelOutcome)
      (clientUpgradeOk : Bool),
      (establishTunnelUpstream creds outcome clientUpgradeOk).clientStatus = 200 ∧
      (establishTunnelUpstream creds outcome clientUpgradeOk).connectSent = true ∧
      (establishTunnelUpstream creds outcome clientUpgradeOk).proxyAuthHeader =
        creds.map toBasicAuth ∧
      ((establishTunnelUpstream creds outcome clientUpgradeOk).spliced = true ↔
        outcome = .response true ∧ clientUpgradeOk = true) := by
  intro creds outcome clientUpgradeOk
  refine ⟨rfl, rfl, rfl, ?_⟩
  cases outcome with
  | connectFailed => simp [establishTunnelUpstream]
  | response b => cases b <;> cases clientUpgradeOk <;> simp [establishTunnelUpstream]

/-- C7 witness: with concrete credentials and a failed upstream CONNECT,
the client still sees 200 and no splice happens; with a successful
upstream upgrade and client upgrade, the splice happens. -/
theorem connect_tunnel_background_c7_witness :
    (establishTunnelUpstream (some credEx) .connectFailed true).clientStatus = 200 ∧
    (establishTunnelUpstream (some credEx) .connectFailed true).spliced = false ∧
    (establishTunnelUpstream (some credEx) (.response true) true).spliced = true := by
  have h1 := connect_tunnel_background_c7 (some credEx) .connectFailed true
  have h2 := connect_tunnel_background_c7 (some credEx) (.response true) true
  refine ⟨h1.1, ?_, h2.2.2.2.mpr ⟨rfl, rfl⟩⟩
  cases hs : (establishTunnelUpstream (some credEx) .connectFailed true).spliced
  · rfl
  · exact absurd (h1.2.2.2.mp hs).1 (by decide)

/-! ## C8: credentials keyed by the route's proxy host -/

/-- C8: credential lookup uses the route's proxy host exactly for
`Upstream` routes (and `None` when the proxy URL has no host); `Direct`
and `Blocked` always yield `None`; and credentials are emitted as a
`Proxy-Authorization` value of exactly `Basic ` followed by
base64(username `:` password), witnessed by the RFC 7617 test vector. -/
theorem credentials_per_route_c8 :
    (∀ getCreds : Str → Option CredentialsT,
      getCredentialsForRoute getCreds .direct = none) ∧
    (∀ (getCreds : Str → Option CredentialsT) (reason : Str),
      getCredentialsForRoute getCreds (.blocked reason) = none) ∧
    (∀ (getCreds : Str → Option CredentialsT) (url : UrlT) (h : Str),
      url.host = some h →
      getCredentialsForRoute getCreds (.upstream url) = getCreds h) ∧
    (∀ (getCreds : Str → Option CredentialsT) (url : UrlT),
      url.host = none →
      getCredentialsForRoute getCreds (.upstream url) = none) ∧
    (∀ c : CredentialsT,
      toBasicAuth c = "Basic ".toList ++
        base64Encode (utf8Bytes (c.username ++ ":".toList ++ c.password))) ∧
    (toBasicAuth ⟨"Aladdin".toList, "open sesame".toList⟩ =
      "Basic QWxhZGRpbjpvcGVuIHNlc2FtZQ==".toList) ∧
    (∀ (url : UrlT) (c : CredentialsT),
      proxyAuthHeaderFor (.upstream url) (some c) = some (toBasicAuth c)) ∧
    (∀ route : ProxyRouteT, proxyAuthHeaderFor route none = none) := by
  refine ⟨fun _ => rfl, fun _ _ => rfl, ?_, ?_, fun _ => rfl, by decide,
    fun _ _ => rfl, ?_⟩
  · intro getCreds url h hh
    simp [getCredentialsForRoute, hh]
  · intro getCreds url hh
    simp [getCredentialsForRoute, hh]
  · intro route
    cases route <;> rfl

/-- C8 witness: an upstream route through `p1` looks credentials up under
the key `p1` (the proxy host), not the target's host. -/
theorem credentials_per_route_c8_witness :
    getCredentialsForRoute (fun h => if h = "p1".toList then some credEx else none)
        (.upstream proxyUrlEx) = some credEx ∧
    getCredentialsForRoute (fun h => if h = "p1".toList then some credEx else none)
        .direct = none := by
  constructor
  · have h := credentials_per_route_c8.2.2.1
      (fun h => if h = "p1".toList then some credEx else none) proxyUrlEx
      "p1".toList (by decide)
    rw [h]
    decide
  · exact credentials_per_route_c8.1 _

/-! ## C9: no failover for plain HTTP requests -/

/-- C9 counterexample: the claim entails that when the transport for a
plain HTTP request fails, every later route of the resolved list was
attempted; but with the list `[upstream p1, Direct]` on a network where
every connect fails, the request fails having attempted only `p1:3128` —
the dispatcher seeds the single resolved route into the connector, which
then never consults the rest of the list. -/
theorem http_failover_counterexample_c9 :
    ¬ (∀ (net : Str → ConnectOutcome) (authority : AuthorityT)
        (routes : List ProxyRouteT) (r : ProxyRouteT) (addr : Str),
        routes ≠ [] →
        (handleHttpTransport net authority routes).2.isOk = false →
        r ∈ routes → routeAddr authority r = some addr →
        addr ∈ (handleHttpTransport net authority routes).1) := by
  intro h
  exact absurd
    (h netFailEx authEx [upEx, .direct] .direct (directAddr authEx)
      (by decide) (by decide) (by decide) (by decide))
    (by decide)

/-- C9 (amended): for a plain HTTP request the dispatcher resolves a
single route and seeds it into the connector's route cache, so the
connector dials exactly that one route (at most one connect attempt) and
a transport failure is reported without attempting any later route; the
connector traverses a full route list only when called without a seeded
route. -/
theorem http_single_route_c9 :
    (∀ (net : Str → ConnectOutcome) (authority : AuthorityT)
        (route : ProxyRouteT) (rest : List ProxyRouteT),
      handleHttpTransport net authority (route :: rest) =
        connectorCall net authority (some route) (.ok (route :: rest))) ∧
    (∀ (net : Str → ConnectOutcome) (authority : AuthorityT)
        (route : ProxyRouteT)
        (resolveAll : Except ProxyErrorT (List ProxyRouteT)),
      connectorCall net authority (some route) resolveAll =
        ((dialTrace net authority [route]).1,
         (dialTrace net authority [route]).2.mapError .dialFailed)) ∧
    (∀ (net : Str → ConnectOutcome) (authority : AuthorityT)
        (route : ProxyRouteT)
        (resolveAll : Except ProxyErrorT (List ProxyRouteT)),
      (connectorCall net authority (some route) resolveAll).1.length ≤ 1) ∧
    (∀ (net : Str → ConnectOutcome) (authority : AuthorityT)
        (routes : List ProxyRouteT),
      connectorCall net authority none (.ok routes) =
        ((dialTrace net authority routes).1,
         (dialTrace net authority routes).2.mapError .dialFailed)) := by
  refine ⟨fun _ _ _ _ => rfl, fun _ _ _ _ => rfl, ?_, fun _ _ _ => rfl⟩
  intro net authority route resolveAll
  cases route with
  | blocked reason => simp [connectorCall, dialTrace]
  | direct =>
    cases h : net (directAddr authority) <;>
      simp [connectorCall, dialTrace, h]
  | upstream proxyUrl =>
    cases h : net (upstreamAddr proxyUrl) <;>
      simp [connectorCall, dialTrace, h]

end Nanoproxy
